import Mathlib

/-!
Formal model of `Scripts/pin_watch.py` (the `PinWatch` Klipper extra).

The sensor store `self.state` is a Python dict from label strings to ints;
it is modelled as a function `String → Option Int` (absent key = `none`,
`dict.get(l, 0)` = `(st l).getD 0`).  Python ints are `Int`.  Python floats
(timer deadlines, `assign_delay`, the 0.1 s retry interval) are modelled as
`Rat`; only their exact arithmetic `now + delay` is used by the code.
-/

/-- Model of `self.state.get(l, 0)` — a stored sensor value, absent reads 0. -/
def sget (st : String → Option Int) (l : String) : Int := (st l).getD 0

/-- The label `"t%d" % i` of bay `i`. -/
def tLabel (i : Nat) : String := "t" ++ toString i

/-- Value read for bay `i`: `int(self.state.get("t%d" % i, 0))`. -/
def bayVal (st : String → Option Int) (i : Nat) : Int := sget st (tLabel i)

/-- One iteration of the `for i in range(N)` loop of `_compute_current_tool`,
accumulating `(bad, S, empties, empty_idx)`. -/
def bayStep (st : String → Option Int) (acc : Int × Int × Int × Int) (i : Nat) :
    Int × Int × Int × Int :=
  ⟨if bayVal st i = 0 ∨ bayVal st i = 1 then acc.1 else 1,
   acc.2.1 + bayVal st i,
   if bayVal st i = 0 then acc.2.2.1 + 1 else acc.2.2.1,
   if bayVal st i = 0 then (i : Int) else acc.2.2.2⟩

/-- Model of `PinWatch._compute_current_tool`, as a pure function of the sensor
store and the tool count `N`.  Returns `(ct, N, ex, S, empties, bad)` exactly
as the Python returns `ct, (N, ex, S, empties, bad)` (with `none` for the
`None` diagnostics of the `N < 1` early return). -/
def compute_current_tool (st : String → Option Int) (N : Int) :
    Int × Int × Option Int × Option Int × Option Int × Int :=
  if N < 1 then (-2, N, none, none, none, 1)
  else
    let ex := sget st "e"
    let r := (List.range N.toNat).foldl (bayStep st)
      (if ex = 0 ∨ ex = 1 then 0 else 1, 0, 0, -1)
    let ct : Int :=
      if r.1 = 1 then -2
      else if ex = 0 ∧ r.2.1 = N then -1
      else if ex = 1 ∧ r.2.1 = N - 1 ∧ r.2.2.1 = 1 then r.2.2.2
      else -2
    (ct, N, some ex, some r.2.1, some r.2.2.1, r.1)

/-- The spec's decision table for tool inference, written from the spec's
words: `N < 1 → Unknown`; any read sensor value outside {0,1} → Unknown;
`ex = 0 ∧ S = N → Unmounted`; `ex = 1 ∧ S = N-1` and exactly one empty bay →
`Mounted(empty_idx)` where `empty_idx` is that empty bay's index; anything
else → Unknown.  Absent sensors read as 0. -/
def spec_inference (st : String → Option Int) (N : Int) : Int :=
  if N < 1 then -2
  else if (¬ (sget st "e" = 0 ∨ sget st "e" = 1)) ∨
      (∃ i ∈ List.range N.toNat, ¬ (bayVal st i = 0 ∨ bayVal st i = 1)) then -2
  else if sget st "e" = 0 ∧ ((List.range N.toNat).map (bayVal st)).sum = N then -1
  else if sget st "e" = 1 ∧ ((List.range N.toNat).map (bayVal st)).sum = N - 1 ∧
      ((List.range N.toNat).filter (fun i => decide (bayVal st i = 0))).length = 1 then
    (((List.range N.toNat).filter (fun i => decide (bayVal st i = 0))).headD 0 : Int)
  else -2

/-- The `empty_idx` accumulator in isolation: the last bay index of `l` whose
value reads 0, defaulting to `d`. -/
def lastZeroIdx (st : String → Option Int) (l : List Nat) (d : Int) : Int :=
  l.foldl (fun a i => if bayVal st i = 0 then (i : Int) else a) d

def digitVal (c : Char) : Option Nat :=
  if '0' ≤ c ∧ c ≤ '9' then some (c.toNat - '0'.toNat) else none

/-- Decimal value of a nonempty all-digit character list, else `none`. -/
def parseDigits : List Char → Option Nat
  | [] => none
  | c :: cs =>
    (c :: cs).foldl
      (fun acc ch =>
        match acc, digitVal ch with
        | some n, some d => some (n * 10 + d)
        | _, _ => none)
      (some 0)

/-- Model of `_parse_t_index`: labels `t<integer>` give their integer index
(Python `int(label[1:])` on an optional sign followed by decimal digits;
other `int()` spellings such as embedded underscores or surrounding
whitespace do not occur in pin labels and are not modelled). -/
def parse_t_index (label : String) : Option Int :=
  match label.data with
  | 't' :: '-' :: ds => (parseDigits ds).map (fun n => -(n : Int))
  | 't' :: '+' :: ds => (parseDigits ds).map (fun n => (n : Int))
  | 't' :: ds => (parseDigits ds).map (fun n => (n : Int))
  | _ => none

/-- Model of `_tool_count`: `0` when no `t` indices exist, else `max + 1`. -/
def tool_count (ti : List Int) : Int :=
  match ti.max? with
  | none => 0
  | some m => m + 1

/-- State of one `PinWatch` object, together with the reactor's outstanding
(registered and not yet fired) timers of each kind (`computeLive`, `tcLive`,
lists of timer ids; deadlines are `Rat` seconds).  Config fields
(`t_indices`, `assign_delay`, `sync_toolchanger`) are set at construction. -/
structure PWState where
  sensors : String → Option Int
  t_indices : List Int
  assign_delay : Rat
  sync_toolchanger : Bool
  current_tool : Int
  pending_reason : String
  compute_timer : Option (Nat × Rat)
  tc_timer : Option (Nat × Rat)
  pending_tc_ct : Option Int
  computeLive : List Nat
  tcLive : List Nat
  nextTimerId : Nat

/-- Model of `get_status`: the exported `current_tool` integer, a pure
projection of the cached value (no state change). -/
def get_status (s : PWState) : Int := s.current_tool

/-- Model of `_schedule_compute(reason, delay)`: record the reason, cancel
(unregister) any pending compute timer, and register a fresh one with
deadline `now + max 0 delay`. -/
def schedule_compute (s : PWState) (reason : String) (delay : Rat) (now : Rat) :
    PWState :=
  match s.compute_timer with
  | some (tid, _) =>
    { s with pending_reason := reason,
             compute_timer := some (s.nextTimerId, now + max 0 delay),
             computeLive := (s.computeLive.erase tid) ++ [s.nextTimerId],
             nextTimerId := s.nextTimerId + 1 }
  | none =>
    { s with pending_reason := reason,
             compute_timer := some (s.nextTimerId, now + max 0 delay),
             computeLive := s.computeLive ++ [s.nextTimerId],
             nextTimerId := s.nextTimerId + 1 }

/-- Model of the debounced-edge callback produced by `_make_callback(label)`:
a duplicate value is a no-op, otherwise store the value and schedule a
recompute after `assign_delay`. -/
def pin_callback (s : PWState) (label : String) (v : Int) (now : Rat) : PWState :=
  if s.sensors label = some v then s
  else schedule_compute
    { s with sensors := fun x => if x = label then some v else s.sensors x }
    label s.assign_delay now

/-- Model of `_do_toolchanger_sync`: the exact command text handed to
`gcode.run_script_from_command`. -/
def do_toolchanger_sync (ct : Int) : String :=
  if 0 ≤ ct then "INITIALIZE_TOOLCHANGER T=" ++ toString ct else "UNSELECT_TOOL"

/-- Model of `_sync_toolchanger_or_defer`: when the tool-changer is busy,
store the target as the pending sync target and arm the 0.1 s retry timer if
none is armed; otherwise dispatch immediately.  Returns the new state and
the list of emitted command texts. -/
def sync_toolchanger_or_defer (s : PWState) (busy : Bool) (now : Rat) (ct : Int) :
    PWState × List String :=
  if busy then
    match s.tc_timer with
    | none =>
      ({ s with pending_tc_ct := some ct,
                tc_timer := some (s.nextTimerId, now + 1/10),
                tcLive := s.tcLive ++ [s.nextTimerId],
                nextTimerId := s.nextTimerId + 1 }, [])
    | some _ => ({ s with pending_tc_ct := some ct }, [])
  else (s, [do_toolchanger_sync ct])

/-- Model of `_request_toolchanger_sync`: while printing, only `ct ≥ 0` is
forwarded to the dispatcher (never an unselect); while not printing, every
result is forwarded. -/
def request_toolchanger_sync (s : PWState) (printing busy : Bool) (now : Rat)
    (ct : Int) : PWState × List String :=
  if printing then
    if 0 ≤ ct then sync_toolchanger_or_defer s busy now ct else (s, [])
  else sync_toolchanger_or_defer s busy now ct

/-- Body of `_compute_timer_cb` (after the reactor consumed the timer):
recompute, cache `current_tool`, and request a toolchanger sync when
enabled. -/
def compute_timer_cb (s : PWState) (printing busy : Bool) (now : Rat) :
    PWState × List String :=
  if s.sync_toolchanger then
    request_toolchanger_sync
      { s with current_tool := (compute_current_tool s.sensors (tool_count s.t_indices)).1 }
      printing busy now
      (compute_current_tool s.sensors (tool_count s.t_indices)).1
  else
    ({ s with current_tool :=
        (compute_current_tool s.sensors (tool_count s.t_indices)).1 }, [])

/-- Body of `_tc_timer_cb` (after the reactor consumed the timer): nothing
pending → return; still busy → re-register the retry timer; otherwise
dispatch the pending target and clear it. -/
def tc_timer_cb (s : PWState) (busy : Bool) (now : Rat) : PWState × List String :=
  match s.pending_tc_ct with
  | none => (s, [])
  | some ct =>
    if busy then
      ({ s with tc_timer := some (s.nextTimerId, now + 1/10),
                tcLive := s.tcLive ++ [s.nextTimerId],
                nextTimerId := s.nextTimerId + 1 }, [])
    else ({ s with pending_tc_ct := none }, [do_toolchanger_sync ct])

/-- External inputs read during one event: the `print_stats` state, the
toolchanger busy status, and the reactor clock. -/
structure Env where
  printing : Bool
  busy : Bool
  now : Rat

/-- Reactor events delivered to the object: a debounced sensor edge, the
compute timer firing, or the sync-retry timer firing. -/
inductive Ev where
  | edge (label : String) (v : Int)
  | computeFire
  | tcFire

def Ev.isEdge : Ev → Bool
  | .edge _ _ => true
  | _ => false

def fire_compute (s : PWState) (tid : Nat) : PWState :=
  { s with compute_timer := none, computeLive := s.computeLive.erase tid }

def fire_tc (s : PWState) (tid : Nat) : PWState :=
  { s with tc_timer := none, tcLive := s.tcLive.erase tid }

/-- One reactor step: timers fire only while registered (firing consumes
the outstanding instance — the callback returns `NEVER`).  Each emitted
command is tagged with the `printing` state at emission time. -/
def step (env : Env) (s : PWState) : Ev → PWState × List (Bool × String)
  | .edge l v => (pin_callback s l v env.now, [])
  | .computeFire =>
    match s.compute_timer with
    | none => (s, [])
    | some (tid, _) =>
      ((compute_timer_cb (fire_compute s tid) env.printing env.busy env.now).1,
       ((compute_timer_cb (fire_compute s tid) env.printing env.busy env.now).2).map
         (fun c => (env.printing, c)))
  | .tcFire =>
    match s.tc_timer with
    | none => (s, [])
    | some (tid, _) =>
      ((tc_timer_cb (fire_tc s tid) env.busy env.now).1,
       ((tc_timer_cb (fire_tc s tid) env.busy env.now).2).map
         (fun c => (env.printing, c)))

/-- Run a trace of events, collecting all emitted commands in order. -/
def run (s : PWState) : List (Env × Ev) → PWState × List (Bool × String)
  | [] => (s, [])
  | (env, ev) :: tr =>
    ((run (step env s ev).1 tr).1,
     (step env s ev).2 ++ (run (step env s ev).1 tr).2)

/-- The object state built by `PinWatch.__init__` from the pin labels:
every configured label starts at 0, `t_indices` is parsed from the labels,
and a startup recompute is scheduled with delay 0. -/
def init_state (labels : List String) (assignDelay : Rat) (sync : Bool)
    (now : Rat) : PWState :=
  schedule_compute
    { sensors := fun l => if labels.contains l then some 0 else none
      t_indices := labels.filterMap parse_t_index
      assign_delay := assignDelay
      sync_toolchanger := sync
      current_tool := -2
      pending_reason := "startup"
      compute_timer := none
      tc_timer := none
      pending_tc_ct := none
      computeLive := []
      tcLive := []
      nextTimerId := 0 }
    "startup" 0 now

/-- Whether an option name starts with the four characters of `pin_`
(`config.get_prefix_options("pin_")` membership). -/
def isPinOption (o : String) : Bool :=
  match o.data with
  | 'p' :: 'i' :: 'n' :: '_' :: _ => true
  | _ => false

/-- The sensor label of a pin option: `opt[len("pin_"):]`. -/
def pinLabel (o : String) : String := ⟨o.data.drop 4⟩

/-- Model of `PinWatch.__init__`'s configuration check: with no `pin_<label>`
option the constructor raises `config.error`; otherwise it builds the state
from the labels (option name minus the `pin_` prefix).  Pin values and
button registration are external I/O and not modelled. -/
def initPW (optionNames : List String) (assignDelay : Rat) (sync : Bool)
    (now : Rat) : Except String PWState :=
  if (optionNames.filter isPinOption).isEmpty then
    .error "pin_watch: no pins found. Add pin_<name>: <pin> options."
  else
    .ok (init_state ((optionNames.filter isPinOption).map pinLabel)
      assignDelay sync now)

/-- Timer bookkeeping invariant: the outstanding reactor timers of each kind
are exactly the one tracked by the object's handle field (hence at most one
of each kind). -/
def TimerInv (s : PWState) : Prop :=
  s.computeLive = (s.compute_timer.map Prod.fst).toList ∧
  s.tcLive = (s.tc_timer.map Prod.fst).toList

/-- Configuration and range invariant carried through every step: the
configured `t_indices` never change, and the cached `current_tool` stays in
`{-2, -1} ∪ [0, tool_count)`. -/
def ToolInv (ti : List Int) (s : PWState) : Prop :=
  s.t_indices = ti ∧
    (s.current_tool = -2 ∨ s.current_tool = -1 ∨
      (0 ≤ s.current_tool ∧ s.current_tool < tool_count ti))

/-- Every value stored as the pending sync target is a select target. -/
def PendingNonneg (s : PWState) : Prop :=
  ∀ ct : Int, s.pending_tc_ct = some ct → 0 ≤ ct

/-- While the retry timer is registered, a pending sync target exists. -/
def TcPendingInv (s : PWState) : Prop :=
  ∀ (tid : Nat) (w : Rat), s.tc_timer = some (tid, w) →
    ∃ ct, s.pending_tc_ct = some ct

/-- A sample store with only the labels the inference reads for N = 1. -/
def sampleStore : String → Option Int :=
  fun l => if l = "e" then some 0 else if l = "t0" then some 1 else none

/-- The same store plus stored values under labels the inference never reads
(an unrecognized label and `t5` with index beyond N = 1). -/
def sampleStoreJunk : String → Option Int :=
  fun l => if l = "e" then some 0 else if l = "t0" then some 1
    else if l = "junk" then some 7 else if l = "t5" then some 1 else none

lemma lastZeroIdx_nil (st : String → Option Int) (d : Int) :
    lastZeroIdx st [] d = d := rfl

lemma lastZeroIdx_cons (st : String → Option Int) (a : Nat) (l : List Nat) (d : Int) :
    lastZeroIdx st (a :: l) d
      = lastZeroIdx st l (if bayVal st a = 0 then (a : Int) else d) := by
  simp [lastZeroIdx]

/-- Characterisation of the bay-scanning loop of `_compute_current_tool`:
the accumulated `bad` flag, occupancy sum, empty count and last empty index. -/
lemma scan_eq (st : String → Option Int) (l : List Nat) (b S c d : Int) :
    l.foldl (bayStep st) (b, S, c, d) =
    ((if ∃ i ∈ l, ¬ (bayVal st i = 0 ∨ bayVal st i = 1) then 1 else b),
     S + (l.map (bayVal st)).sum,
     c + ((l.filter (fun i => decide (bayVal st i = 0))).length : Int),
     lastZeroIdx st l d) := by
  induction l generalizing b S c d with
  | nil => simp [lastZeroIdx]
  | cons a l ih =>
    have hcons : (∃ i ∈ a :: l, ¬ (bayVal st i = 0 ∨ bayVal st i = 1)) ↔
        (¬ (bayVal st a = 0 ∨ bayVal st a = 1) ∨
          ∃ i ∈ l, ¬ (bayVal st i = 0 ∨ bayVal st i = 1)) := by
      constructor
      · rintro ⟨i, hi, hP⟩
        rcases List.mem_cons.mp hi with rfl | hi
        · exact Or.inl hP
        · exact Or.inr ⟨i, hi, hP⟩
      · rintro (hP | ⟨i, hi, hP⟩)
        · exact ⟨a, List.mem_cons_self a l, hP⟩
        · exact ⟨i, List.mem_cons_of_mem a hi, hP⟩
    rw [List.foldl_cons, bayStep, ih, lastZeroIdx_cons]
    simp only [List.map_cons, List.sum_cons, List.filter_cons, Prod.mk.injEq]
    refine ⟨?_, ?_, ?_, trivial⟩
    · by_cases ha : bayVal st a = 0 ∨ bayVal st a = 1
      · by_cases hl : ∃ i ∈ l, ¬ (bayVal st i = 0 ∨ bayVal st i = 1)
        · rw [if_pos hl, if_pos (hcons.mpr (Or.inr hl))]
        · rw [if_neg hl, if_pos ha,
            if_neg (fun hc => (hcons.mp hc).elim (fun h => h ha) hl)]
      · rw [if_pos (hcons.mpr (Or.inl ha)), if_neg ha, ite_self]
    · ring
    · by_cases ha0 : bayVal st a = 0 <;> simp [ha0] <;> push_cast <;> omega

/-- The last-zero accumulator equals the last element of the filtered list
(cast to `Int`), defaulting to `d` when no bay reads 0. -/
lemma lastZeroIdx_eq_getLastD (st : String → Option Int) (l : List Nat) (d : Int) :
    lastZeroIdx st l d =
      ((l.filter (fun i => decide (bayVal st i = 0))).map
        (fun i : Nat => (i : Int))).getLastD d := by
  induction l generalizing d with
  | nil => rfl
  | cons a l ih =>
    rw [lastZeroIdx_cons, List.filter_cons]
    by_cases h0 : bayVal st a = 0
    · have hd : decide (bayVal st a = 0) = true := by simp [h0]
      rw [if_pos h0, if_pos hd, List.map_cons, List.getLastD_cons, ih]
    · have hd : ¬ (decide (bayVal st a = 0) = true) := by simp [h0]
      rw [if_neg h0, if_neg hd, ih]

/-- When exactly one bay reads 0, the loop's `empty_idx` is that bay's index,
which is also the head of the filtered index list. -/
lemma lastZeroIdx_of_singleton (st : String → Option Int) (l : List Nat) (j : Nat)
    (h : l.filter (fun i => decide (bayVal st i = 0)) = [j]) (d : Int) :
    lastZeroIdx st l d = (j : Int) := by
  rw [lastZeroIdx_eq_getLastD, h]
  rfl

/-- The inference loop agrees with the spec's decision table on every sensor
snapshot and every tool count. -/
lemma compute_eq_spec (st : String → Option Int) (N : Int) :
    (compute_current_tool st N).1 = spec_inference st N := by
  unfold compute_current_tool spec_inference
  by_cases hN : N < 1
  · simp [hN]
  · simp only [hN, if_false, ite_false]
    rw [scan_eq]
    by_cases hbad : (¬ (sget st "e" = 0 ∨ sget st "e" = 1)) ∨
        (∃ i ∈ List.range N.toNat, ¬ (bayVal st i = 0 ∨ bayVal st i = 1))
    · have hb : (if ∃ i ∈ List.range N.toNat, ¬ (bayVal st i = 0 ∨ bayVal st i = 1)
          then (1 : Int) else if sget st "e" = 0 ∨ sget st "e" = 1 then 0 else 1) = 1 := by
        rcases hbad with hex | hl
        · by_cases hl : ∃ i ∈ List.range N.toNat, ¬ (bayVal st i = 0 ∨ bayVal st i = 1)
          · rw [if_pos hl]
          · rw [if_neg hl, if_neg hex]
        · rw [if_pos hl]
      rw [hb, if_pos (show (1 : Int) = 1 from rfl), if_pos hbad]
    · rw [not_or] at hbad
      obtain ⟨hex, hnl⟩ := hbad
      have hexv : sget st "e" = 0 ∨ sget st "e" = 1 := not_not.mp hex
      have hb : (if ∃ i ∈ List.range N.toNat, ¬ (bayVal st i = 0 ∨ bayVal st i = 1)
          then (1 : Int) else if sget st "e" = 0 ∨ sget st "e" = 1 then 0 else 1) = 0 := by
        rw [if_neg hnl, if_pos hexv]
      rw [hb, if_neg (show (0 : Int) ≠ 1 by decide),
        if_neg (fun hc => Or.elim hc (fun h => h hexv) hnl)]
      simp only [zero_add]
      by_cases hum : sget st "e" = 0 ∧ ((List.range N.toNat).map (bayVal st)).sum = N
      · rw [if_pos hum, if_pos hum]
      · rw [if_neg hum, if_neg hum]
        by_cases hm : sget st "e" = 1 ∧ ((List.range N.toNat).map (bayVal st)).sum = N - 1 ∧
            ((List.range N.toNat).filter (fun i => decide (bayVal st i = 0))).length = 1
        · obtain ⟨hm1, hm2, hm3⟩ := hm
          obtain ⟨j, hj⟩ := List.length_eq_one.mp hm3
          have hmInt : sget st "e" = 1 ∧ ((List.range N.toNat).map (bayVal st)).sum = N - 1 ∧
              (((List.range N.toNat).filter (fun i => decide (bayVal st i = 0))).length : Int)
                = 1 := ⟨hm1, hm2, by exact_mod_cast hm3⟩
          rw [if_pos hmInt, if_pos ⟨hm1, hm2, hm3⟩,
            lastZeroIdx_of_singleton st _ j hj, hj]
          rfl
        · have hmInt : ¬ (sget st "e" = 1 ∧
              ((List.range N.toNat).map (bayVal st)).sum = N - 1 ∧
              (((List.range N.toNat).filter (fun i => decide (bayVal st i = 0))).length : Int)
                = 1) := by
            rintro ⟨h1, h2, h3⟩
            exact hm ⟨h1, h2, by exact_mod_cast h3⟩
          rw [if_neg hmInt, if_neg hm]

example :
    (compute_current_tool
      (fun l => if l = "e" then some 1 else if l = "t0" then some 1 else
        if l = "t1" then some 0 else if l = "t2" then some 1 else none) 3).1
      = 1 := by decide

example :
    (compute_current_tool
      (fun l => if l = "e" then some 0 else if l = "t0" then some 1 else
        if l = "t1" then some 1 else if l = "t2" then some 1 else none) 3).1
      = -1 := by decide

example :
    (compute_current_tool (fun _ => some 0) 3).1 = -2 := by decide

lemma run_nil (s : PWState) : run s [] = (s, []) := rfl

lemma run_cons (s : PWState) (env : Env) (ev : Ev) (tr : List (Env × Ev)) :
    run s ((env, ev) :: tr) =
      ((run (step env s ev).1 tr).1,
        (step env s ev).2 ++ (run (step env s ev).1 tr).2) := rfl

/-- Induction principle for `run`: a predicate preserved by every step taken
under environments satisfying `C` holds at the end of every such trace. -/
lemma run_preserve (C : Env → Prop) (P : PWState → Prop)
    (hstep : ∀ env s ev, C env → P s → P (step env s ev).1) :
    ∀ (tr : List (Env × Ev)) (s : PWState), (∀ p ∈ tr, C p.1) → P s →
      P (run s tr).1 := by
  intro tr
  induction tr with
  | nil => intro s _ hs; exact hs
  | cons p tr ih =>
    intro s hC hs
    obtain ⟨env, ev⟩ := p
    exact ih _ (fun q hq => hC q (List.mem_cons_of_mem _ hq))
      (hstep env s ev (hC (env, ev) (List.mem_cons_self _ _)) hs)

/-- Every command a trace emits satisfies `Q`, provided each single step
under a `C`-environment from a `P`-state only emits `Q`-commands. -/
lemma run_out (C : Env → Prop) (P : PWState → Prop) (Q : Bool × String → Prop)
    (hstep : ∀ env s ev, C env → P s → P (step env s ev).1)
    (hout : ∀ env s ev e, C env → P s → e ∈ (step env s ev).2 → Q e) :
    ∀ (tr : List (Env × Ev)) (s : PWState), (∀ p ∈ tr, C p.1) → P s →
      ∀ e ∈ (run s tr).2, Q e := by
  intro tr
  induction tr with
  | nil => intro s _ _ e he; simp [run] at he
  | cons p tr ih =>
    intro s hC hs e he
    obtain ⟨env, ev⟩ := p
    have he' : e ∈ (step env s ev).2 ++ (run (step env s ev).1 tr).2 := he
    rcases List.mem_append.mp he' with h | h
    · exact hout env s ev e (hC _ (List.mem_cons_self _ _)) hs h
    · exact ih _ (fun q hq => hC q (List.mem_cons_of_mem _ hq))
        (hstep env s ev (hC _ (List.mem_cons_self _ _)) hs) e h

/-- The dispatcher emits nothing while busy, and exactly the formatted
command while free. -/
lemma sync_out (s : PWState) (busy : Bool) (now : Rat) (ct : Int) (c : String)
    (hc : c ∈ (sync_toolchanger_or_defer s busy now ct).2) :
    busy = false ∧ c = do_toolchanger_sync ct := by
  unfold sync_toolchanger_or_defer at hc
  split at hc
  · rename_i hbusy
    split at hc <;> simp at hc
  · rename_i hbusy
    refine ⟨by simpa using hbusy, by simpa using hc⟩

lemma request_out (s : PWState) (printing busy : Bool) (now : Rat) (ct : Int)
    (c : String) (hc : c ∈ (request_toolchanger_sync s printing busy now ct).2) :
    busy = false ∧ c = do_toolchanger_sync ct := by
  unfold request_toolchanger_sync at hc
  split at hc
  · split at hc
    · exact sync_out _ _ _ _ _ hc
    · simp at hc
  · exact sync_out _ _ _ _ _ hc

/-- While printing, the request path forwards only non-negative targets. -/
lemma request_out_printing (s : PWState) (busy : Bool) (now : Rat) (ct : Int)
    (c : String) (hc : c ∈ (request_toolchanger_sync s true busy now ct).2) :
    0 ≤ ct ∧ c = do_toolchanger_sync ct := by
  unfold request_toolchanger_sync at hc
  rw [if_pos rfl] at hc
  split at hc
  · rename_i h0
    exact ⟨h0, (sync_out _ _ _ _ _ hc).2⟩
  · simp at hc

lemma compute_cb_out (s : PWState) (printing busy : Bool) (now : Rat) (c : String)
    (hc : c ∈ (compute_timer_cb s printing busy now).2) :
    busy = false ∧
      c = do_toolchanger_sync
        (compute_current_tool s.sensors (tool_count s.t_indices)).1 := by
  unfold compute_timer_cb at hc
  split at hc
  · exact request_out _ _ _ _ _ _ hc
  · simp at hc

lemma tc_cb_out (s : PWState) (busy : Bool) (now : Rat) (c : String)
    (hc : c ∈ (tc_timer_cb s busy now).2) :
    ∃ ct : Int, s.pending_tc_ct = some ct ∧ busy = false ∧
      c = do_toolchanger_sync ct := by
  unfold tc_timer_cb at hc
  split at hc
  · simp at hc
  · rename_i ct hct
    split at hc
    · simp at hc
    · rename_i hbusy
      exact ⟨ct, hct, by simpa using hbusy, by simpa using hc⟩

/-- Every command any step emits is tagged with the step's `printing` flag
and is the dispatch of some target through `_do_toolchanger_sync`. -/
lemma step_out_shape (env : Env) (s : PWState) (ev : Ev) (e : Bool × String)
    (he : e ∈ (step env s ev).2) :
    e.1 = env.printing ∧ ∃ ct : Int, e.2 = do_toolchanger_sync ct := by
  cases ev with
  | edge l v => simp [step] at he
  | computeFire =>
    rcases hct : s.compute_timer with _ | ⟨tid, w⟩ <;>
      simp only [step, hct] at he
    · simp at he
    · obtain ⟨c, hc, rfl⟩ := List.mem_map.mp he
      exact ⟨rfl, _, (compute_cb_out _ _ _ _ _ hc).2⟩
  | tcFire =>
    rcases hct : s.tc_timer with _ | ⟨tid, w⟩ <;>
      simp only [step, hct] at he
    · simp at he
    · obtain ⟨c, hc, rfl⟩ := List.mem_map.mp he
      obtain ⟨ct, _, _, hcd⟩ := tc_cb_out _ _ _ _ hc
      exact ⟨rfl, ct, hcd⟩

@[simp] lemma fire_compute_sensors (s : PWState) (tid : Nat) :
    (fire_compute s tid).sensors = s.sensors := rfl

@[simp] lemma fire_compute_t_indices (s : PWState) (tid : Nat) :
    (fire_compute s tid).t_indices = s.t_indices := rfl

@[simp] lemma fire_compute_current_tool (s : PWState) (tid : Nat) :
    (fire_compute s tid).current_tool = s.current_tool := rfl

@[simp] lemma fire_compute_tc_timer (s : PWState) (tid : Nat) :
    (fire_compute s tid).tc_timer = s.tc_timer := rfl

@[simp] lemma fire_compute_tcLive (s : PWState) (tid : Nat) :
    (fire_compute s tid).tcLive = s.tcLive := rfl

@[simp] lemma fire_compute_pending_tc (s : PWState) (tid : Nat) :
    (fire_compute s tid).pending_tc_ct = s.pending_tc_ct := rfl

@[simp] lemma fire_compute_sync_flag (s : PWState) (tid : Nat) :
    (fire_compute s tid).sync_toolchanger = s.sync_toolchanger := rfl

@[simp] lemma fire_compute_compute_timer (s : PWState) (tid : Nat) :
    (fire_compute s tid).compute_timer = none := rfl

@[simp] lemma fire_compute_computeLive (s : PWState) (tid : Nat) :
    (fire_compute s tid).computeLive = s.computeLive.erase tid := rfl

@[simp] lemma fire_compute_nextTimerId (s : PWState) (tid : Nat) :
    (fire_compute s tid).nextTimerId = s.nextTimerId := rfl

@[simp] lemma fire_tc_sensors (s : PWState) (tid : Nat) :
    (fire_tc s tid).sensors = s.sensors := rfl

@[simp] lemma fire_tc_t_indices (s : PWState) (tid : Nat) :
    (fire_tc s tid).t_indices = s.t_indices := rfl

@[simp] lemma fire_tc_current_tool (s : PWState) (tid : Nat) :
    (fire_tc s tid).current_tool = s.current_tool := rfl

@[simp] lemma fire_tc_compute_timer (s : PWState) (tid : Nat) :
    (fire_tc s tid).compute_timer = s.compute_timer := rfl

@[simp] lemma fire_tc_computeLive (s : PWState) (tid : Nat) :
    (fire_tc s tid).computeLive = s.computeLive := rfl

@[simp] lemma fire_tc_pending_tc (s : PWState) (tid : Nat) :
    (fire_tc s tid).pending_tc_ct = s.pending_tc_ct := rfl

@[simp] lemma fire_tc_tc_timer (s : PWState) (tid : Nat) :
    (fire_tc s tid).tc_timer = none := rfl

@[simp] lemma fire_tc_tcLive (s : PWState) (tid : Nat) :
    (fire_tc s tid).tcLive = s.tcLive.erase tid := rfl

@[simp] lemma fire_tc_nextTimerId (s : PWState) (tid : Nat) :
    (fire_tc s tid).nextTimerId = s.nextTimerId := rfl

@[simp] lemma schedule_compute_pending_tc (s : PWState) (r : String) (d now : Rat) :
    (schedule_compute s r d now).pending_tc_ct = s.pending_tc_ct := by
  unfold schedule_compute; split <;> rfl

@[simp] lemma schedule_compute_tc_timer (s : PWState) (r : String) (d now : Rat) :
    (schedule_compute s r d now).tc_timer = s.tc_timer := by
  unfold schedule_compute; split <;> rfl

@[simp] lemma schedule_compute_tcLive (s : PWState) (r : String) (d now : Rat) :
    (schedule_compute s r d now).tcLive = s.tcLive := by
  unfold schedule_compute; split <;> rfl

@[simp] lemma schedule_compute_t_indices (s : PWState) (r : String) (d now : Rat) :
    (schedule_compute s r d now).t_indices = s.t_indices := by
  unfold schedule_compute; split <;> rfl

@[simp] lemma schedule_compute_current_tool (s : PWState) (r : String) (d now : Rat) :
    (schedule_compute s r d now).current_tool = s.current_tool := by
  unfold schedule_compute; split <;> rfl

@[simp] lemma schedule_compute_sync_flag (s : PWState) (r : String) (d now : Rat) :
    (schedule_compute s r d now).sync_toolchanger = s.sync_toolchanger := by
  unfold schedule_compute; split <;> rfl

@[simp] lemma schedule_compute_assign_delay (s : PWState) (r : String) (d now : Rat) :
    (schedule_compute s r d now).assign_delay = s.assign_delay := by
  unfold schedule_compute; split <;> rfl

@[simp] lemma schedule_compute_sensors (s : PWState) (r : String) (d now : Rat) :
    (schedule_compute s r d now).sensors = s.sensors := by
  unfold schedule_compute; split <;> rfl

@[simp] lemma pin_callback_pending_tc (s : PWState) (l : String) (v : Int) (now : Rat) :
    (pin_callback s l v now).pending_tc_ct = s.pending_tc_ct := by
  unfold pin_callback; split
  · rfl
  · rw [schedule_compute_pending_tc]

@[simp] lemma pin_callback_tc_timer (s : PWState) (l : String) (v : Int) (now : Rat) :
    (pin_callback s l v now).tc_timer = s.tc_timer := by
  unfold pin_callback; split
  · rfl
  · rw [schedule_compute_tc_timer]

@[simp] lemma pin_callback_tcLive (s : PWState) (l : String) (v : Int) (now : Rat) :
    (pin_callback s l v now).tcLive = s.tcLive := by
  unfold pin_callback; split
  · rfl
  · rw [schedule_compute_tcLive]

@[simp] lemma pin_callback_t_indices (s : PWState) (l : String) (v : Int) (now : Rat) :
    (pin_callback s l v now).t_indices = s.t_indices := by
  unfold pin_callback; split
  · rfl
  · rw [schedule_compute_t_indices]

@[simp] lemma pin_callback_current_tool (s : PWState) (l : String) (v : Int) (now : Rat) :
    (pin_callback s l v now).current_tool = s.current_tool := by
  unfold pin_callback; split
  · rfl
  · rw [schedule_compute_current_tool]

@[simp] lemma sync_defer_t_indices (s : PWState) (busy : Bool) (now : Rat) (ct : Int) :
    ((sync_toolchanger_or_defer s busy now ct).1).t_indices = s.t_indices := by
  unfold sync_toolchanger_or_defer; split
  · split <;> rfl
  · rfl

@[simp] lemma sync_defer_current_tool (s : PWState) (busy : Bool) (now : Rat) (ct : Int) :
    ((sync_toolchanger_or_defer s busy now ct).1).current_tool = s.current_tool := by
  unfold sync_toolchanger_or_defer; split
  · split <;> rfl
  · rfl

@[simp] lemma sync_defer_sensors (s : PWState) (busy : Bool) (now : Rat) (ct : Int) :
    ((sync_toolchanger_or_defer s busy now ct).1).sensors = s.sensors := by
  unfold sync_toolchanger_or_defer; split
  · split <;> rfl
  · rfl

@[simp] lemma sync_defer_compute_timer (s : PWState) (busy : Bool) (now : Rat) (ct : Int) :
    ((sync_toolchanger_or_defer s busy now ct).1).compute_timer = s.compute_timer := by
  unfold sync_toolchanger_or_defer; split
  · split <;> rfl
  · rfl

@[simp] lemma sync_defer_computeLive (s : PWState) (busy : Bool) (now : Rat) (ct : Int) :
    ((sync_toolchanger_or_defer s busy now ct).1).computeLive = s.computeLive := by
  unfold sync_toolchanger_or_defer; split
  · split <;> rfl
  · rfl

@[simp] lemma request_t_indices (s : PWState) (p b : Bool) (now : Rat) (ct : Int) :
    ((request_toolchanger_sync s p b now ct).1).t_indices = s.t_indices := by
  unfold request_toolchanger_sync; split
  · split
    · exact sync_defer_t_indices _ _ _ _
    · rfl
  · exact sync_defer_t_indices _ _ _ _

@[simp] lemma request_current_tool (s : PWState) (p b : Bool) (now : Rat) (ct : Int) :
    ((request_toolchanger_sync s p b now ct).1).current_tool = s.current_tool := by
  unfold request_toolchanger_sync; split
  · split
    · exact sync_defer_current_tool _ _ _ _
    · rfl
  · exact sync_defer_current_tool _ _ _ _

@[simp] lemma request_sensors (s : PWState) (p b : Bool) (now : Rat) (ct : Int) :
    ((request_toolchanger_sync s p b now ct).1).sensors = s.sensors := by
  unfold request_toolchanger_sync; split
  · split
    · exact sync_defer_sensors _ _ _ _
    · rfl
  · exact sync_defer_sensors _ _ _ _

@[simp] lemma request_compute_timer (s : PWState) (p b : Bool) (now : Rat) (ct : Int) :
    ((request_toolchanger_sync s p b now ct).1).compute_timer = s.compute_timer := by
  unfold request_toolchanger_sync; split
  · split
    · exact sync_defer_compute_timer _ _ _ _
    · rfl
  · exact sync_defer_compute_timer _ _ _ _

@[simp] lemma request_computeLive (s : PWState) (p b : Bool) (now : Rat) (ct : Int) :
    ((request_toolchanger_sync s p b now ct).1).computeLive = s.computeLive := by
  unfold request_toolchanger_sync; split
  · split
    · exact sync_defer_computeLive _ _ _ _
    · rfl
  · exact sync_defer_computeLive _ _ _ _

@[simp] lemma compute_cb_t_indices (s : PWState) (p b : Bool) (now : Rat) :
    ((compute_timer_cb s p b now).1).t_indices = s.t_indices := by
  unfold compute_timer_cb; split
  · rw [request_t_indices]
  · rfl

@[simp] lemma compute_cb_sensors (s : PWState) (p b : Bool) (now : Rat) :
    ((compute_timer_cb s p b now).1).sensors = s.sensors := by
  unfold compute_timer_cb; split
  · rw [request_sensors]
  · rfl

@[simp] lemma compute_cb_compute_timer (s : PWState) (p b : Bool) (now : Rat) :
    ((compute_timer_cb s p b now).1).compute_timer = s.compute_timer := by
  unfold compute_timer_cb; split
  · rw [request_compute_timer]
  · rfl

@[simp] lemma compute_cb_computeLive (s : PWState) (p b : Bool) (now : Rat) :
    ((compute_timer_cb s p b now).1).computeLive = s.computeLive := by
  unfold compute_timer_cb; split
  · rw [request_computeLive]
  · rfl

lemma compute_cb_current_tool (s : PWState) (p b : Bool) (now : Rat) :
    ((compute_timer_cb s p b now).1).current_tool =
      (compute_current_tool s.sensors (tool_count s.t_indices)).1 := by
  unfold compute_timer_cb; split
  · rw [request_current_tool]
  · rfl

@[simp] lemma tc_cb_t_indices (s : PWState) (b : Bool) (now : Rat) :
    ((tc_timer_cb s b now).1).t_indices = s.t_indices := by
  unfold tc_timer_cb; split
  · rfl
  · split <;> rfl

@[simp] lemma tc_cb_current_tool (s : PWState) (b : Bool) (now : Rat) :
    ((tc_timer_cb s b now).1).current_tool = s.current_tool := by
  unfold tc_timer_cb; split
  · rfl
  · split <;> rfl

@[simp] lemma tc_cb_sensors (s : PWState) (b : Bool) (now : Rat) :
    ((tc_timer_cb s b now).1).sensors = s.sensors := by
  unfold tc_timer_cb; split
  · rfl
  · split <;> rfl

@[simp] lemma tc_cb_compute_timer (s : PWState) (b : Bool) (now : Rat) :
    ((tc_timer_cb s b now).1).compute_timer = s.compute_timer := by
  unfold tc_timer_cb; split
  · rfl
  · split <;> rfl

@[simp] lemma tc_cb_computeLive (s : PWState) (b : Bool) (now : Rat) :
    ((tc_timer_cb s b now).1).computeLive = s.computeLive := by
  unfold tc_timer_cb; split
  · rfl
  · split <;> rfl

lemma step_t_indices (env : Env) (s : PWState) (ev : Ev) :
    ((step env s ev).1).t_indices = s.t_indices := by
  cases ev with
  | edge l v => exact pin_callback_t_indices _ _ _ _
  | computeFire =>
    rcases hct : s.compute_timer with _ | ⟨tid, w⟩ <;> simp [step, hct]
  | tcFire =>
    rcases hct : s.tc_timer with _ | ⟨tid, w⟩ <;> simp [step, hct]

lemma step_sensors_eq (env : Env) (s : PWState) (ev : Ev) (hev : ev.isEdge = false) :
    ((step env s ev).1).sensors = s.sensors := by
  cases ev with
  | edge l v => simp [Ev.isEdge] at hev
  | computeFire =>
    rcases hct : s.compute_timer with _ | ⟨tid, w⟩ <;> simp [step, hct]
  | tcFire =>
    rcases hct : s.tc_timer with _ | ⟨tid, w⟩ <;> simp [step, hct]

lemma timerInv_schedule (s : PWState) (r : String) (d now : Rat)
    (h : TimerInv s) : TimerInv (schedule_compute s r d now) := by
  obtain ⟨h1, h2⟩ := h
  unfold schedule_compute
  rcases hct : s.compute_timer with _ | ⟨tid, w⟩
  · rw [hct] at h1
    simp only [hct]
    refine ⟨by simp [h1], h2⟩
  · rw [hct] at h1
    simp only [hct]
    refine ⟨by simp [h1, List.erase_cons_head], h2⟩

lemma timerInv_pin (s : PWState) (l : String) (v : Int) (now : Rat)
    (h : TimerInv s) : TimerInv (pin_callback s l v now) := by
  unfold pin_callback
  split
  · exact h
  · exact timerInv_schedule _ _ _ _ h

lemma timerInv_sync (s : PWState) (busy : Bool) (now : Rat) (ct : Int)
    (h : TimerInv s) : TimerInv (sync_toolchanger_or_defer s busy now ct).1 := by
  obtain ⟨h1, h2⟩ := h
  unfold sync_toolchanger_or_defer
  split
  · split
    · rename_i heq
      rw [heq] at h2
      exact ⟨h1, by simp [h2]⟩
    · exact ⟨h1, h2⟩
  · exact ⟨h1, h2⟩

lemma timerInv_request (s : PWState) (p b : Bool) (now : Rat) (ct : Int)
    (h : TimerInv s) : TimerInv (request_toolchanger_sync s p b now ct).1 := by
  unfold request_toolchanger_sync
  split
  · split
    · exact timerInv_sync _ _ _ _ h
    · exact h
  · exact timerInv_sync _ _ _ _ h

lemma timerInv_ccb (s : PWState) (p b : Bool) (now : Rat)
    (h : TimerInv s) : TimerInv (compute_timer_cb s p b now).1 := by
  unfold compute_timer_cb
  split
  · exact timerInv_request _ _ _ _ _ h
  · exact h

lemma timerInv_tcb (s : PWState) (b : Bool) (now : Rat)
    (h : TimerInv s) (htc : s.tc_timer = none) : TimerInv (tc_timer_cb s b now).1 := by
  obtain ⟨h1, h2⟩ := h
  rw [htc] at h2
  unfold tc_timer_cb
  split
  · exact ⟨h1, by simp [h2, htc]⟩
  · split
    · exact ⟨h1, by simp [h2, htc]⟩
    · exact ⟨h1, by simp [h2, htc]⟩

lemma timerInv_step (env : Env) (s : PWState) (ev : Ev) (h : TimerInv s) :
    TimerInv (step env s ev).1 := by
  cases ev with
  | edge l v => exact timerInv_pin _ _ _ _ h
  | computeFire =>
    rcases hct : s.compute_timer with _ | ⟨tid, w⟩
    · simp only [step, hct]; exact h
    · have hf : TimerInv (fire_compute s tid) := by
        obtain ⟨h1, h2⟩ := h
        rw [hct] at h1
        exact ⟨by simp [fire_compute, h1, List.erase_cons_head], h2⟩
      simp only [step, hct]
      exact timerInv_ccb _ _ _ _ hf
  | tcFire =>
    rcases hct : s.tc_timer with _ | ⟨tid, w⟩
    · simp only [step, hct]; exact h
    · have hf : TimerInv (fire_tc s tid) := by
        obtain ⟨h1, h2⟩ := h
        rw [hct] at h2
        exact ⟨h1, by simp [fire_tc, h2, List.erase_cons_head]⟩
      simp only [step, hct]
      exact timerInv_tcb _ _ _ hf rfl

lemma timerInv_init (labels : List String) (d : Rat) (sy : Bool) (now : Rat) :
    TimerInv (init_state labels d sy now) :=
  timerInv_schedule _ _ _ _ ⟨rfl, rfl⟩

/-- Range of the inference result: Unknown, Unmounted, or a bay index below
the tool count. -/
lemma compute_range (st : String → Option Int) (N : Int) :
    (compute_current_tool st N).1 = -2 ∨ (compute_current_tool st N).1 = -1 ∨
      (0 ≤ (compute_current_tool st N).1 ∧ (compute_current_tool st N).1 < N) := by
  rw [compute_eq_spec]
  unfold spec_inference
  split_ifs with h1 h2 h3 h4
  · exact Or.inl rfl
  · exact Or.inl rfl
  · exact Or.inr (Or.inl rfl)
  · obtain ⟨hm1, hm2, hm3⟩ := h4
    obtain ⟨j, hj⟩ := List.length_eq_one.mp hm3
    have hjmem : j ∈ (List.range N.toNat).filter
        (fun i => decide (bayVal st i = 0)) := by
      rw [hj]; exact List.mem_singleton_self j
    have hjlt : j < N.toNat := List.mem_range.mp (List.mem_filter.mp hjmem).1
    rw [hj]
    refine Or.inr (Or.inr ⟨Int.ofNat_nonneg _, ?_⟩)
    have hjN : (j : Int) < (N.toNat : Int) := by exact_mod_cast hjlt
    have h0N : (0 : Int) ≤ N := by omega
    rw [Int.toNat_of_nonneg h0N] at hjN
    exact hjN
  · exact Or.inl rfl

lemma toolInv_step (ti : List Int) (env : Env) (s : PWState) (ev : Ev)
    (h : ToolInv ti s) : ToolInv ti (step env s ev).1 := by
  obtain ⟨h1, h2⟩ := h
  refine ⟨by rw [step_t_indices]; exact h1, ?_⟩
  cases ev with
  | edge l v =>
    simp only [step]
    rw [pin_callback_current_tool]
    exact h2
  | computeFire =>
    rcases hct : s.compute_timer with _ | ⟨tid, w⟩
    · simp only [step, hct]; exact h2
    · simp only [step, hct]
      rw [compute_cb_current_tool, fire_compute_sensors, fire_compute_t_indices, h1]
      exact compute_range _ _
  | tcFire =>
    rcases hct : s.tc_timer with _ | ⟨tid, w⟩
    · simp only [step, hct]; exact h2
    · simp only [step, hct]
      rw [tc_cb_current_tool, fire_tc_current_tool]
      exact h2

lemma sync_defer_pending_busy (s : PWState) (now : Rat) (ct : Int) :
    ((sync_toolchanger_or_defer s true now ct).1).pending_tc_ct = some ct := by
  unfold sync_toolchanger_or_defer
  rw [if_pos rfl]
  split <;> rfl

lemma sync_defer_pending_free (s : PWState) (now : Rat) (ct : Int) :
    ((sync_toolchanger_or_defer s false now ct).1).pending_tc_ct
      = s.pending_tc_ct := by
  unfold sync_toolchanger_or_defer
  rw [if_neg Bool.false_ne_true]

lemma sync_defer_pending (s : PWState) (busy : Bool) (now : Rat) (ct : Int) :
    ((sync_toolchanger_or_defer s busy now ct).1).pending_tc_ct
      = if busy then some ct else s.pending_tc_ct := by
  cases busy
  · rw [sync_defer_pending_free]; rfl
  · rw [sync_defer_pending_busy]; rfl

lemma request_pending_nonneg (s : PWState) (b : Bool) (now : Rat) (ct : Int)
    (h : PendingNonneg s) :
    PendingNonneg (request_toolchanger_sync s true b now ct).1 := by
  unfold request_toolchanger_sync
  rw [if_pos rfl]
  split
  · rename_i h0
    intro ct' hct'
    rw [sync_defer_pending] at hct'
    cases b
    · exact h ct' (by simpa using hct')
    · rw [if_pos rfl] at hct'
      obtain rfl := Option.some.inj hct'
      exact h0
  · exact h

lemma ccb_pending_nonneg (s : PWState) (b : Bool) (now : Rat)
    (h : PendingNonneg s) : PendingNonneg (compute_timer_cb s true b now).1 := by
  unfold compute_timer_cb
  split
  · exact request_pending_nonneg _ _ _ _ h
  · exact h

lemma tcb_pending_nonneg (s : PWState) (b : Bool) (now : Rat)
    (h : PendingNonneg s) : PendingNonneg (tc_timer_cb s b now).1 := by
  unfold tc_timer_cb
  split
  · exact h
  · split
    · exact h
    · intro ct' h'
      exact Option.noConfusion h'

lemma pendingNonneg_step (env : Env) (s : PWState) (ev : Ev)
    (hp : env.printing = true) (h : PendingNonneg s) :
    PendingNonneg (step env s ev).1 := by
  cases ev with
  | edge l v =>
    intro ct hct
    simp only [step] at hct
    rw [pin_callback_pending_tc] at hct
    exact h ct hct
  | computeFire =>
    rcases hct : s.compute_timer with _ | ⟨tid, w⟩
    · simp only [step, hct]; exact h
    · simp only [step, hct, hp]
      exact ccb_pending_nonneg _ _ _ h
  | tcFire =>
    rcases hct : s.tc_timer with _ | ⟨tid, w⟩
    · simp only [step, hct]; exact h
    · simp only [step, hct]
      exact tcb_pending_nonneg _ _ _ h

lemma pendingNonneg_init (labels : List String) (d : Rat) (sy : Bool) (now : Rat) :
    PendingNonneg (init_state labels d sy now) := by
  intro ct hct
  unfold init_state at hct
  rw [schedule_compute_pending_tc] at hct
  exact Option.noConfusion hct

lemma initialize_ne_unselect (t : String) :
    "INITIALIZE_TOOLCHANGER T=" ++ t ≠ "UNSELECT_TOOL" := by
  intro h
  have hl := congrArg String.length h
  rw [String.length_append] at hl
  have h1 : ("INITIALIZE_TOOLCHANGER T=" : String).length = 25 := by decide
  have h2 : ("UNSELECT_TOOL" : String).length = 13 := by decide
  omega

lemma do_sync_nonneg_ne_unselect (ct : Int) (h : 0 ≤ ct) :
    do_toolchanger_sync ct ≠ "UNSELECT_TOOL" := by
  unfold do_toolchanger_sync
  rw [if_pos h]
  exact initialize_ne_unselect _

lemma compute_cb_out_printing (s : PWState) (b : Bool) (now : Rat) (c : String)
    (hc : c ∈ (compute_timer_cb s true b now).2) :
    ∃ ct : Int, 0 ≤ ct ∧ c = do_toolchanger_sync ct := by
  unfold compute_timer_cb at hc
  split at hc
  · obtain ⟨h0, hcd⟩ := request_out_printing _ _ _ _ _ hc
    exact ⟨_, h0, hcd⟩
  · simp at hc

lemma step_printing_no_unselect (env : Env) (s : PWState) (ev : Ev)
    (e : Bool × String) (hp : env.printing = true) (h : PendingNonneg s)
    (he : e ∈ (step env s ev).2) : e.2 ≠ "UNSELECT_TOOL" := by
  cases ev with
  | edge l v => simp [step] at he
  | computeFire =>
    rcases hct : s.compute_timer with _ | ⟨tid, w⟩ <;> simp only [step, hct] at he
    · simp at he
    · obtain ⟨c, hc, rfl⟩ := List.mem_map.mp he
      rw [hp] at hc
      obtain ⟨ct, h0, rfl⟩ := compute_cb_out_printing _ _ _ _ hc
      exact do_sync_nonneg_ne_unselect ct h0
  | tcFire =>
    rcases hct : s.tc_timer with _ | ⟨tid, w⟩ <;> simp only [step, hct] at he
    · simp at he
    · obtain ⟨c, hc, rfl⟩ := List.mem_map.mp he
      obtain ⟨ct, hpend, _, rfl⟩ := tc_cb_out _ _ _ _ hc
      have h0 : 0 ≤ ct := h ct hpend
      exact do_sync_nonneg_ne_unselect ct h0

lemma run_printing_no_unselect (tr : List (Env × Ev)) (s : PWState)
    (htr : ∀ p ∈ tr, p.1.printing = true) (h : PendingNonneg s) :
    ∀ e ∈ (run s tr).2, e.2 ≠ "UNSELECT_TOOL" :=
  run_out (fun env => env.printing = true) PendingNonneg
    (fun e => e.2 ≠ "UNSELECT_TOOL")
    (fun env s ev hC hP => pendingNonneg_step env s ev hC hP)
    (fun env s ev e hC hP he => step_printing_no_unselect env s ev e hC hP he)
    tr s htr h

/-- C1: the tool-inference function (`_compute_current_tool`), applied to any
sensor snapshot and tool count `N`, returns exactly per the spec's decision
table: `N < 1 → Unknown (-2)`; any read sensor value outside {0,1} → Unknown
regardless of the other conditions; otherwise `ex = 0` and `S = N` →
Unmounted (-1); otherwise `ex = 1`, `S = N-1` and exactly one bay reading 0 →
`Mounted(empty_idx)` with `empty_idx` that empty bay's index; every other
combination → Unknown (-2).  Absent sensors read as 0. -/
theorem C1_inference_decision_table (st : String → Option Int) (N : Int) :
    (compute_current_tool st N).1 = spec_inference st N :=
  compute_eq_spec st N

/-- C2 counterexample: the claim "while isPrinting() is true, UNSELECT_TOOL
is never emitted, on every path including the deferred-retry timer path" is
false.  With one configured pin `t0`, the startup inference is Unknown (-2);
it is decided while not printing but the tool-changer is busy, so `-2` is
stored as the pending target.  Printing then starts, the retry timer fires
with the tool-changer free, and `UNSELECT_TOOL` is emitted while
`isPrinting()` is true. -/
theorem C2_unselect_while_printing_cex :
    (run (init_state ["t0"] 0 true 0)
      [(⟨false, true, 0⟩, Ev.computeFire), (⟨true, false, 1⟩, Ev.tcFire)]).2
      = [(true, "UNSELECT_TOOL")] := by decide

/-- C2 (amended): the printing check is applied at decision time, not at
emission time.  In any execution from startup in which `isPrinting()` is
true at every step, `UNSELECT_TOOL` is never emitted (only `Mounted`
targets are ever decided or stored while printing).  The original claim
fails only when a target decided while not printing is later dispatched by
the retry timer during printing, because `_tc_timer_cb` does not re-check
`isPrinting()`. -/
theorem C2_no_unselect_when_printing_throughout (labels : List String)
    (d now : Rat) (sy : Bool) (tr : List (Env × Ev))
    (htr : ∀ p ∈ tr, p.1.printing = true) :
    ∀ e ∈ (run (init_state labels d sy now) tr).2, e.2 ≠ "UNSELECT_TOOL" :=
  run_printing_no_unselect tr (init_state labels d sy now) htr
    (pendingNonneg_init labels d sy now)

theorem C2_no_unselect_when_printing_throughout_witness :
    (∀ p ∈ [((⟨true, false, 0⟩ : Env), Ev.computeFire)], p.1.printing = true) ∧
    ∀ e ∈ (run (init_state ["e", "t0"] 0 true 0)
        [(⟨true, false, 0⟩, Ev.computeFire)]).2, e.2 ≠ "UNSELECT_TOOL" :=
  ⟨by decide,
   C2_no_unselect_when_printing_throughout ["e", "t0"] 0 0 true
     [(⟨true, false, 0⟩, Ev.computeFire)] (by decide)⟩

/-- C3 counterexample: the claim "PendingSyncTarget is overwritten by every
newer dispatch decision and no stale pending value can cause a duplicated
command after a newer decision was dispatched directly" is false.  With pins
`e, t0, t1`: `Mounted(0)` is decided while the tool-changer is busy and
stored as pending; the sensors then move to `Mounted(1)`, which is decided
while the tool-changer is free and dispatched directly (`T=1`) — without
clearing or overwriting the pending value; the retry timer then fires and
also dispatches the stale pending `T=0` after the newer decision. -/
theorem C3_stale_pending_duplicate_cex :
    (run (init_state ["e", "t0", "t1"] 0 true 0)
      [(⟨false, false, 0⟩, Ev.edge "e" 1),
       (⟨false, false, 0⟩, Ev.edge "t1" 1),
       (⟨false, true, 0⟩, Ev.computeFire),
       (⟨false, false, 0⟩, Ev.edge "t0" 1),
       (⟨false, false, 0⟩, Ev.edge "t1" 0),
       (⟨false, false, 1⟩, Ev.computeFire),
       (⟨false, false, 2⟩, Ev.tcFire)]).2
      = [(false, "INITIALIZE_TOOLCHANGER T=1"),
         (false, "INITIALIZE_TOOLCHANGER T=0")] := by decide

/-- C3 (amended): `PendingSyncTarget` is overwritten (last-write-wins) by
every decision made while the tool-changer is busy, and is cleared exactly
when the retry timer dispatches it; but a decision made while the
tool-changer is not busy dispatches directly and leaves any stored pending
value untouched, so a stale pending target can still be dispatched after a
newer direct dispatch. -/
theorem C3_pending_overwrite_and_clear (s : PWState) (now : Rat) (ct : Int) :
    (((sync_toolchanger_or_defer s true now ct).1).pending_tc_ct = some ct) ∧
    (((sync_toolchanger_or_defer s false now ct).1).pending_tc_ct
      = s.pending_tc_ct) ∧
    (∀ (env : Env) (tid : Nat) (w : Rat) (ct' : Int),
      env.busy = false → s.tc_timer = some (tid, w) →
      s.pending_tc_ct = some ct' →
      ((step env s Ev.tcFire).1.pending_tc_ct = none ∧
        (step env s Ev.tcFire).2 = [(env.printing, do_toolchanger_sync ct')])) := by
  refine ⟨sync_defer_pending_busy s now ct, sync_defer_pending_free s now ct, ?_⟩
  intro env tid w ct' hbusy htc hpend
  simp only [step, htc]
  unfold tc_timer_cb
  have hp : (fire_tc s tid).pending_tc_ct = some ct' := hpend
  rw [hp]
  simp only [hbusy]
  exact ⟨rfl, rfl⟩

lemma init_t_indices (labels : List String) (d : Rat) (sy : Bool) (now : Rat) :
    (init_state labels d sy now).t_indices = labels.filterMap parse_t_index := by
  unfold init_state
  rw [schedule_compute_t_indices]

lemma init_current_tool (labels : List String) (d : Rat) (sy : Bool) (now : Rat) :
    (init_state labels d sy now).current_tool = -2 := by
  unfold init_state
  rw [schedule_compute_current_tool]

lemma init_tc_timer (labels : List String) (d : Rat) (sy : Bool) (now : Rat) :
    (init_state labels d sy now).tc_timer = none := by
  unfold init_state
  rw [schedule_compute_tc_timer]

lemma sync_tc_inv (s : PWState) (busy : Bool) (now : Rat) (ct : Int)
    (h : TcPendingInv s) : TcPendingInv (sync_toolchanger_or_defer s busy now ct).1 := by
  unfold sync_toolchanger_or_defer
  cases busy
  · rw [if_neg Bool.false_ne_true]
    exact h
  · rw [if_pos rfl]
    split
    · exact fun tid w _ => ⟨ct, rfl⟩
    · exact fun tid w _ => ⟨ct, rfl⟩

lemma request_tc_inv (s : PWState) (p b : Bool) (now : Rat) (ct : Int)
    (h : TcPendingInv s) :
    TcPendingInv (request_toolchanger_sync s p b now ct).1 := by
  unfold request_toolchanger_sync
  split
  · split
    · exact sync_tc_inv _ _ _ _ h
    · exact h
  · exact sync_tc_inv _ _ _ _ h

lemma ccb_tc_inv (s : PWState) (p b : Bool) (now : Rat)
    (h : TcPendingInv s) : TcPendingInv (compute_timer_cb s p b now).1 := by
  unfold compute_timer_cb
  split
  · exact request_tc_inv _ _ _ _ _ h
  · exact h

lemma tcb_tc_inv (s : PWState) (b : Bool) (now : Rat) (htc : s.tc_timer = none) :
    TcPendingInv (tc_timer_cb s b now).1 := by
  unfold tc_timer_cb
  split
  · intro tid w htt
    rw [htc] at htt
    exact Option.noConfusion htt
  · rename_i ct hct
    split
    · exact fun tid w _ => ⟨ct, hct⟩
    · intro tid w htt
      have h' : s.tc_timer = some (tid, w) := htt
      rw [htc] at h'
      exact Option.noConfusion h'

lemma tcPendingInv_step (env : Env) (s : PWState) (ev : Ev)
    (h : TcPendingInv s) : TcPendingInv (step env s ev).1 := by
  cases ev with
  | edge l v =>
    intro tid w htt
    simp only [step] at htt ⊢
    rw [pin_callback_tc_timer] at htt
    obtain ⟨ct, hct⟩ := h tid w htt
    refine ⟨ct, ?_⟩
    rw [pin_callback_pending_tc]
    exact hct
  | computeFire =>
    rcases hct : s.compute_timer with _ | ⟨tid, w⟩
    · simp only [step, hct]; exact h
    · simp only [step, hct]
      exact ccb_tc_inv _ _ _ _ h
  | tcFire =>
    rcases hct : s.tc_timer with _ | ⟨tid, w⟩
    · simp only [step, hct]; exact h
    · simp only [step, hct]
      exact tcb_tc_inv _ _ _ rfl

lemma tcPendingInv_init (labels : List String) (d : Rat) (sy : Bool) (now : Rat) :
    TcPendingInv (init_state labels d sy now) := by
  intro tid w htt
  rw [init_tc_timer] at htt
  exact Option.noConfusion htt

lemma step_computeFire_current_tool (env : Env) (s : PWState) (tid : Nat)
    (w : Rat) (hct : s.compute_timer = some (tid, w)) :
    ((step env s Ev.computeFire).1).current_tool =
      (compute_current_tool s.sensors (tool_count s.t_indices)).1 := by
  simp only [step, hct]
  rw [compute_cb_current_tool, fire_compute_sensors, fire_compute_t_indices]

lemma step_computeFire_timer_none (env : Env) (s : PWState) (tid : Nat)
    (w : Rat) (hct : s.compute_timer = some (tid, w)) :
    ((step env s Ev.computeFire).1).compute_timer = none := by
  simp only [step, hct]
  rw [compute_cb_compute_timer, fire_compute_compute_timer]

lemma step_computeFire_noop (env : Env) (s : PWState)
    (h : s.compute_timer = none) : step env s Ev.computeFire = (s, []) := by
  simp only [step, h]

/-- A sequence consisting only of sensor edges emits no command. -/
lemma run_edges_silent (tr : List (Env × Ev)) :
    ∀ s : PWState, (∀ p ∈ tr, p.2.isEdge = true) → (run s tr).2 = [] := by
  induction tr with
  | nil => intro s _; rfl
  | cons p tr ih =>
    intro s h
    obtain ⟨env, ev⟩ := p
    have he : ev.isEdge = true := h (env, ev) (List.mem_cons_self _ _)
    cases ev with
    | edge l v =>
      show (step env s (Ev.edge l v)).2 ++ (run (step env s (Ev.edge l v)).1 tr).2 = []
      rw [ih _ (fun q hq => h q (List.mem_cons_of_mem _ hq))]
      rfl
    | computeFire => simp [Ev.isEdge] at he
    | tcFire => simp [Ev.isEdge] at he

/-- The bay-scanning loop only reads the `t<i>` labels it visits. -/
lemma foldl_bayStep_congr (st1 st2 : String → Option Int) (l : List Nat)
    (h : ∀ i ∈ l, st1 (tLabel i) = st2 (tLabel i)) (acc : Int × Int × Int × Int) :
    l.foldl (bayStep st1) acc = l.foldl (bayStep st2) acc := by
  induction l generalizing acc with
  | nil => rfl
  | cons a l ih =>
    rw [List.foldl_cons, List.foldl_cons]
    have hv : bayVal st1 a = bayVal st2 a := by
      unfold bayVal sget
      rw [h a (List.mem_cons_self a l)]
    rw [show bayStep st1 acc a = bayStep st2 acc a by unfold bayStep; rw [hv]]
    exact ih (fun i hi => h i (List.mem_cons_of_mem a hi)) _

lemma pin_callback_noop (s : PWState) (l : String) (v : Int) (t : Rat)
    (h : s.sensors l = some v) : pin_callback s l v t = s := by
  unfold pin_callback
  rw [if_pos h]

lemma pin_callback_sensors_self (s : PWState) (l : String) (v : Int) (t : Rat) :
    (pin_callback s l v t).sensors l = some v := by
  unfold pin_callback
  split
  · rename_i h; exact h
  · rw [schedule_compute_sensors]
    simp

lemma sync_defer_busy_out (s : PWState) (now : Rat) (ct : Int) :
    (sync_toolchanger_or_defer s true now ct).2 = [] := by
  unfold sync_toolchanger_or_defer
  rw [if_pos rfl]
  split <;> rfl

lemma sync_defer_arm (s : PWState) (now : Rat) (ct : Int)
    (h : s.tc_timer = none) :
    ((sync_toolchanger_or_defer s true now ct).1).tc_timer
      = some (s.nextTimerId, now + 1/10) := by
  unfold sync_toolchanger_or_defer
  rw [if_pos rfl]
  split
  · rfl
  · rename_i t heq
    rw [h] at heq
    exact Option.noConfusion heq

lemma sync_defer_keep (s : PWState) (now : Rat) (ct : Int) (t : Nat × Rat)
    (h : s.tc_timer = some t) :
    ((sync_toolchanger_or_defer s true now ct).1).tc_timer = some t := by
  unfold sync_toolchanger_or_defer
  rw [if_pos rfl]
  split
  · rename_i heq
    rw [h] at heq
    exact Option.noConfusion heq
  · exact h

lemma tcb_busy_rearm (s : PWState) (now : Rat) (ct : Int)
    (hp : s.pending_tc_ct = some ct) :
    tc_timer_cb s true now =
      ({ s with tc_timer := some (s.nextTimerId, now + 1/10),
                tcLive := s.tcLive ++ [s.nextTimerId],
                nextTimerId := s.nextTimerId + 1 }, []) := by
  unfold tc_timer_cb
  split
  · rename_i heq
    rw [hp] at heq
    exact Option.noConfusion heq
  · rw [if_pos rfl]

lemma tcb_free_dispatch (s : PWState) (now : Rat) (ct : Int)
    (hp : s.pending_tc_ct = some ct) :
    tc_timer_cb s false now =
      ({ s with pending_tc_ct := none }, [do_toolchanger_sync ct]) := by
  unfold tc_timer_cb
  split
  · rename_i heq
    rw [hp] at heq
    exact Option.noConfusion heq
  · rename_i ct' heq
    rw [if_neg Bool.false_ne_true]
    rw [hp] at heq
    obtain rfl := Option.some.inj heq
    rfl

/-- C4: a dispatch decision made while the tool-changer is busy emits
nothing, stores the target as the pending sync target, and arms the 0.1 s
retry timer when none is armed (keeping the existing one otherwise); a retry
fire while still busy emits nothing, keeps the pending target and re-arms
the timer for 0.1 s later; the first retry fire with the tool-changer free
dispatches exactly one command, the most recently stored target, and clears
it.  In every reachable state an armed retry timer implies a stored pending
target. -/
theorem C4_busy_defer_and_retry :
    (∀ (s : PWState) (now : Rat) (ct : Int),
      (sync_toolchanger_or_defer s true now ct).2 = [] ∧
      ((sync_toolchanger_or_defer s true now ct).1).pending_tc_ct = some ct ∧
      (s.tc_timer = none →
        ((sync_toolchanger_or_defer s true now ct).1).tc_timer
          = some (s.nextTimerId, now + 1/10)) ∧
      (∀ t, s.tc_timer = some t →
        ((sync_toolchanger_or_defer s true now ct).1).tc_timer = some t)) ∧
    (∀ (env : Env) (s : PWState) (tid : Nat) (w : Rat) (ct : Int),
      env.busy = true → s.tc_timer = some (tid, w) → s.pending_tc_ct = some ct →
      (step env s Ev.tcFire).2 = [] ∧
      (step env s Ev.tcFire).1.pending_tc_ct = some ct ∧
      (step env s Ev.tcFire).1.tc_timer = some (s.nextTimerId, env.now + 1/10)) ∧
    (∀ (env : Env) (s : PWState) (tid : Nat) (w : Rat) (ct : Int),
      env.busy = false → s.tc_timer = some (tid, w) → s.pending_tc_ct = some ct →
      (step env s Ev.tcFire).2 = [(env.printing, do_toolchanger_sync ct)] ∧
      (step env s Ev.tcFire).1.pending_tc_ct = none) ∧
    (∀ (labels : List String) (d : Rat) (sy : Bool) (now : Rat)
        (tr : List (Env × Ev)) (tid : Nat) (w : Rat),
      ((run (init_state labels d sy now) tr).1).tc_timer = some (tid, w) →
      ∃ ct, ((run (init_state labels d sy now) tr).1).pending_tc_ct = some ct) := by
  refine ⟨?_, ?_, ?_, ?_⟩
  · intro s now ct
    exact ⟨sync_defer_busy_out s now ct, sync_defer_pending_busy s now ct,
      fun h => sync_defer_arm s now ct h,
      fun t ht => sync_defer_keep s now ct t ht⟩
  · intro env s tid w ct hbusy htc hpend
    simp only [step, htc]
    rw [hbusy, tcb_busy_rearm (fire_tc s tid) env.now ct hpend]
    exact ⟨rfl, hpend, rfl⟩
  · intro env s tid w ct hbusy htc hpend
    simp only [step, htc]
    rw [hbusy, tcb_free_dispatch (fire_tc s tid) env.now ct hpend]
    exact ⟨rfl, rfl⟩
  · intro labels d sy now tr tid w htt
    exact run_preserve (fun _ => True) TcPendingInv
      (fun env s ev _ hP => tcPendingInv_step env s ev hP) tr _
      (fun p _ => trivial) (tcPendingInv_init labels d sy now) tid w htt

theorem C4_busy_defer_and_retry_witness :
    ((⟨false, true, 5⟩ : Env).busy = true) ∧
    ((run (init_state ["t0"] 0 true 0)
        [(⟨false, true, 0⟩, Ev.computeFire)]).1).tc_timer
      = some (1, (0 : Rat) + 1/10) ∧
    ((run (init_state ["t0"] 0 true 0)
        [(⟨false, true, 0⟩, Ev.computeFire)]).1).pending_tc_ct = some (-2) ∧
    ((step ⟨false, true, 5⟩
        (run (init_state ["t0"] 0 true 0)
          [(⟨false, true, 0⟩, Ev.computeFire)]).1 Ev.tcFire).2 = [] ∧
      (step ⟨false, true, 5⟩
        (run (init_state ["t0"] 0 true 0)
          [(⟨false, true, 0⟩, Ev.computeFire)]).1 Ev.tcFire).1.pending_tc_ct
        = some (-2) ∧
      (step ⟨false, true, 5⟩
        (run (init_state ["t0"] 0 true 0)
          [(⟨false, true, 0⟩, Ev.computeFire)]).1 Ev.tcFire).1.tc_timer
        = some ((run (init_state ["t0"] 0 true 0)
            [(⟨false, true, 0⟩, Ev.computeFire)]).1.nextTimerId,
            (⟨false, true, 5⟩ : Env).now + 1/10)) :=
  ⟨rfl, rfl, by decide,
    C4_busy_defer_and_retry.2.1 ⟨false, true, 5⟩ _ 1 ((0 : Rat) + 1/10) (-2)
      rfl rfl (by decide)⟩

/-- C5: sensor-edge updates are idempotent for duplicate values.  If the
stored value for the label already equals the delivered value, the edge
callback is a no-op (the whole state, including timers, is unchanged, so no
recomputation is scheduled); delivering the same (label, value) twice leaves
the state exactly as after the first delivery, so at most one recomputation
is triggered. -/
theorem C5_duplicate_edge_suppression (s : PWState) (l : String) (v : Int)
    (t t' : Rat) :
    (s.sensors l = some v → pin_callback s l v t = s) ∧
    pin_callback (pin_callback s l v t) l v t' = pin_callback s l v t := by
  constructor
  · exact fun h => pin_callback_noop s l v t h
  · exact pin_callback_noop _ _ _ _ (pin_callback_sensors_self s l v t)

theorem C5_duplicate_edge_suppression_witness :
    (init_state ["t0"] 0 true 0).sensors "t0" = some 0 ∧
    pin_callback (init_state ["t0"] 0 true 0) "t0" 0 1 = init_state ["t0"] 0 true 0 :=
  ⟨by decide,
    (C5_duplicate_edge_suppression (init_state ["t0"] 0 true 0) "t0" 0 1 2).1
      (by decide)⟩

/-- C6: at most one outstanding timer of each kind exists in any reachable
state (scheduling unregisters the previous compute timer before arming the
new one; the retry timer is armed only when none is armed), and a burst of
edge events with no intervening fire coalesces: after any all-edge sequence,
one compute fire sets `current_tool` from the sensor state after the last
edge, and an immediately following compute fire is a complete no-op (no
state change, no emission), so exactly one inference pass results. -/
theorem C6_single_timer_and_coalescing :
    (∀ (labels : List String) (d : Rat) (sy : Bool) (now : Rat)
        (tr : List (Env × Ev)),
      ((run (init_state labels d sy now) tr).1).computeLive.length ≤ 1 ∧
      ((run (init_state labels d sy now) tr).1).tcLive.length ≤ 1) ∧
    (∀ (s : PWState) (tr : List (Env × Ev)) (env env' : Env),
      (∀ p ∈ tr, p.2.isEdge = true) →
      (run s tr).2 = [] ∧
      (((run s tr).1).compute_timer.isSome = true →
        ((step env (run s tr).1 Ev.computeFire).1).current_tool =
          (compute_current_tool ((run s tr).1).sensors
            (tool_count ((run s tr).1).t_indices)).1 ∧
        step env' (step env (run s tr).1 Ev.computeFire).1 Ev.computeFire =
          ((step env (run s tr).1 Ev.computeFire).1, []))) := by
  constructor
  · intro labels d sy now tr
    have h := run_preserve (fun _ => True) TimerInv
      (fun env s ev _ hP => timerInv_step env s ev hP) tr _
      (fun p _ => trivial) (timerInv_init labels d sy now)
    obtain ⟨h1, h2⟩ := h
    constructor
    · rw [h1]
      cases ((run (init_state labels d sy now) tr).1).compute_timer <;> simp
    · rw [h2]
      cases ((run (init_state labels d sy now) tr).1).tc_timer <;> simp
  · intro s tr env env' htr
    refine ⟨run_edges_silent tr s htr, fun hsome => ?_⟩
    obtain ⟨⟨tid, w⟩, hct⟩ := Option.isSome_iff_exists.mp hsome
    exact ⟨step_computeFire_current_tool env _ tid w hct,
      step_computeFire_noop env' _ (step_computeFire_timer_none env _ tid w hct)⟩

theorem C6_single_timer_and_coalescing_witness :
    (∀ p ∈ [((⟨false, false, 0⟩ : Env), Ev.edge "t0" 1)], p.2.isEdge = true) ∧
    (run (init_state ["t0"] 0 true 0)
      [(⟨false, false, 0⟩, Ev.edge "t0" 1)]).2 = [] :=
  ⟨by decide,
    (C6_single_timer_and_coalescing.2 (init_state ["t0"] 0 true 0)
      [(⟨false, false, 0⟩, Ev.edge "t0" 1)] ⟨false, false, 0⟩ ⟨false, false, 0⟩
      (by decide)).1⟩

/-- C7: while not printing and with sync enabled and the tool-changer free,
a compute-timer fire emits exactly one command mirroring the inference:
the text `INITIALIZE_TOOLCHANGER T=<n>` when the result is `Mounted(n)` and
the text `UNSELECT_TOOL` when it is Unmounted or Unknown; and on every path
whatsoever, every emitted command is one of those two texts (with a
non-negative index). -/
theorem C7_not_printing_full_mirror :
    (∀ (env : Env) (s : PWState) (tid : Nat) (w : Rat),
      env.printing = false → env.busy = false → s.sync_toolchanger = true →
      s.compute_timer = some (tid, w) →
      (step env s Ev.computeFire).2 =
        [(false,
          if 0 ≤ (compute_current_tool s.sensors (tool_count s.t_indices)).1 then
            "INITIALIZE_TOOLCHANGER T=" ++
              toString (compute_current_tool s.sensors (tool_count s.t_indices)).1
          else "UNSELECT_TOOL")]) ∧
    (∀ (env : Env) (s : PWState) (ev : Ev) (e : Bool × String),
      e ∈ (step env s ev).2 →
      (∃ n : Int, 0 ≤ n ∧ e.2 = "INITIALIZE_TOOLCHANGER T=" ++ toString n) ∨
      e.2 = "UNSELECT_TOOL") := by
  constructor
  · intro env s tid w hp hb hsy hct
    simp only [step, hct]
    unfold compute_timer_cb
    rw [if_pos (show (fire_compute s tid).sync_toolchanger = true from hsy)]
    unfold request_toolchanger_sync
    rw [if_neg (show ¬ env.printing = true by rw [hp]; exact Bool.false_ne_true)]
    unfold sync_toolchanger_or_defer
    rw [if_neg (show ¬ env.busy = true by rw [hb]; exact Bool.false_ne_true)]
    simp only [List.map_cons, List.map_nil, fire_compute_sensors,
      fire_compute_t_indices, hp]
    unfold do_toolchanger_sync
    rfl
  · intro env s ev e he
    obtain ⟨hp, ct, hcd⟩ := step_out_shape env s ev e he
    by_cases h0 : 0 ≤ ct
    · exact Or.inl ⟨ct, h0, by rw [hcd]; unfold do_toolchanger_sync; rw [if_pos h0]⟩
    · refine Or.inr ?_
      rw [hcd]
      unfold do_toolchanger_sync
      rw [if_neg h0]

theorem C7_not_printing_full_mirror_witness :
    ((⟨false, false, 0⟩ : Env).printing = false) ∧
    (init_state ["t0"] 0 true 0).sync_toolchanger = true ∧
    (init_state ["t0"] 0 true 0).compute_timer
      = some (0, (0 : Rat) + max 0 0) ∧
    (step ⟨false, false, 0⟩ (init_state ["t0"] 0 true 0) Ev.computeFire).2 =
      [(false,
        if 0 ≤ (compute_current_tool (init_state ["t0"] 0 true 0).sensors
            (tool_count (init_state ["t0"] 0 true 0).t_indices)).1 then
          "INITIALIZE_TOOLCHANGER T=" ++
            toString (compute_current_tool (init_state ["t0"] 0 true 0).sensors
              (tool_count (init_state ["t0"] 0 true 0).t_indices)).1
        else "UNSELECT_TOOL")] :=
  ⟨rfl, by decide, rfl,
    C7_not_printing_full_mirror.1 ⟨false, false, 0⟩ (init_state ["t0"] 0 true 0)
      0 ((0 : Rat) + max 0 0) rfl rfl (by decide) rfl⟩

/-- C8: construction fails with the configuration error exactly when no
`pin_<label>` option is configured; with at least one such option the
constructor returns a built state and raises no error. -/
theorem C8_requires_pin_options (optionNames : List String) (d : Rat)
    (sy : Bool) (now : Rat) :
    ((optionNames.filter isPinOption).isEmpty = true →
      initPW optionNames d sy now = Except.error
        "pin_watch: no pins found. Add pin_<name>: <pin> options.") ∧
    ((optionNames.filter isPinOption).isEmpty = false →
      ∃ s, initPW optionNames d sy now = Except.ok s) := by
  constructor
  · intro h
    unfold initPW
    rw [if_pos h]
  · intro h
    unfold initPW
    rw [if_neg (by rw [h]; exact Bool.false_ne_true)]
    exact ⟨_, rfl⟩

theorem C8_requires_pin_options_witness :
    (([] : List String).filter isPinOption).isEmpty = true ∧
    initPW [] 0 true 0 = Except.error
      "pin_watch: no pins found. Add pin_<name>: <pin> options." ∧
    ((["pin_t0", "toolchanger"].filter isPinOption).isEmpty = false ∧
      ∃ s, initPW ["pin_t0", "toolchanger"] 0 true 0 = Except.ok s) :=
  ⟨by decide, (C8_requires_pin_options [] 0 true 0).1 (by decide),
    by decide, (C8_requires_pin_options ["pin_t0", "toolchanger"] 0 true 0).2
      (by decide)⟩

/-- C9: the inference result is always -2 (Unknown), -1 (Unmounted) or a
Mounted index in `[0, N)`; `get_status` is a pure projection of the cached
`current_tool`; and in every reachable state of every execution the cached
exported value lies in `{-2, -1} ∪ [0, tool_count)` for the configuration's
tool count. -/
theorem C9_current_tool_range :
    (∀ (st : String → Option Int) (N : Int),
      (compute_current_tool st N).1 = -2 ∨ (compute_current_tool st N).1 = -1 ∨
        (0 ≤ (compute_current_tool st N).1 ∧ (compute_current_tool st N).1 < N)) ∧
    (∀ s : PWState, get_status s = s.current_tool) ∧
    (∀ (labels : List String) (d : Rat) (sy : Bool) (now : Rat)
        (tr : List (Env × Ev)),
      get_status (run (init_state labels d sy now) tr).1 = -2 ∨
      get_status (run (init_state labels d sy now) tr).1 = -1 ∨
      (0 ≤ get_status (run (init_state labels d sy now) tr).1 ∧
        get_status (run (init_state labels d sy now) tr).1 <
          tool_count (labels.filterMap parse_t_index))) := by
  refine ⟨compute_range, fun s => rfl, ?_⟩
  intro labels d sy now tr
  have h := run_preserve (fun _ => True)
    (ToolInv (labels.filterMap parse_t_index))
    (fun env s ev _ hP => toolInv_step _ env s ev hP) tr _
    (fun p _ => trivial)
    ⟨init_t_indices labels d sy now, Or.inl (init_current_tool labels d sy now)⟩
  exact h.2

/-- C10: noninterference of unrecognized sensor labels.  Two stores that
agree on label `e` and on labels `t0 .. t(N-1)` (and may differ on any other
label) give the same inference result and the same diagnostics. -/
theorem C10_noninterference (st1 st2 : String → Option Int) (N : Int)
    (he : st1 "e" = st2 "e")
    (ht : ∀ i ∈ List.range N.toNat, st1 (tLabel i) = st2 (tLabel i)) :
    compute_current_tool st1 N = compute_current_tool st2 N := by
  have h1 : sget st1 "e" = sget st2 "e" := by
    unfold sget; rw [he]
  have h2 : ∀ acc : Int × Int × Int × Int,
      (List.range N.toNat).foldl (bayStep st1) acc
        = (List.range N.toNat).foldl (bayStep st2) acc :=
    fun acc => foldl_bayStep_congr st1 st2 _ ht acc
  simp only [compute_current_tool]
  rw [h1, h2]

theorem C10_noninterference_witness :
    sampleStore "e" = sampleStoreJunk "e" ∧
    (∀ i ∈ List.range (1 : Int).toNat,
      sampleStore (tLabel i) = sampleStoreJunk (tLabel i)) ∧
    sampleStore "junk" ≠ sampleStoreJunk "junk" ∧
    compute_current_tool sampleStore 1 = compute_current_tool sampleStoreJunk 1 :=
  ⟨rfl, by decide, by decide,
    C10_noninterference sampleStore sampleStoreJunk 1 rfl (by decide)⟩

theorem C3_pending_overwrite_and_clear_witness :
    ((⟨false, false, 5⟩ : Env).busy = false) ∧
    ((run (init_state ["t0"] 0 true 0)
        [(⟨false, true, 0⟩, Ev.computeFire)]).1).tc_timer
      = some (1, (0 : Rat) + 1/10) ∧
    ((run (init_state ["t0"] 0 true 0)
        [(⟨false, true, 0⟩, Ev.computeFire)]).1).pending_tc_ct = some (-2) ∧
    ((step ⟨false, false, 5⟩
        (run (init_state ["t0"] 0 true 0)
          [(⟨false, true, 0⟩, Ev.computeFire)]).1 Ev.tcFire).1.pending_tc_ct
        = none ∧
      (step ⟨false, false, 5⟩
        (run (init_state ["t0"] 0 true 0)
          [(⟨false, true, 0⟩, Ev.computeFire)]).1 Ev.tcFire).2
        = [(false, do_toolchanger_sync (-2))]) :=
  ⟨rfl, rfl, by decide,
    (C3_pending_overwrite_and_clear
        (run (init_state ["t0"] 0 true 0)
          [(⟨false, true, 0⟩, Ev.computeFire)]).1 0 0).2.2
      ⟨false, false, 5⟩ 1 ((0 : Rat) + 1/10) (-2) rfl rfl (by decide)⟩
